import Mathlib

/-!
Verification of the `BaseIndex` layer of `forte/data/index.py`.

The Python class keeps several dictionaries and two boolean switches.  We
model each Python `dict`/`defaultdict` whose key set is observable as a
`PyDict`: a finite set of present keys together with a value function (the
value at an absent key is never read).  The `_entry_index` dictionary, whose
key set is never iterated, is modelled directly as `Nat → Option Entry`.
Python types are modelled as natural-number codes; `issubclass` is an
external relation passed explicitly to `query_by_type_subtype`.
Python exceptions are modelled as values: `KeyError` (the spec's NotFound
condition) and `PackIndexError` (the spec's IndexUnavailable condition).
Mutating operations return the post-call state together with the raised
error, if any, so that partial mutation before a raise stays observable.
-/

/-- A Python dictionary with observable key set.  `val k` is the stored
value when `k ∈ keys`; at absent keys `val` is never consulted. -/
structure PyDict (α : Type) where
  keys : Finset ℕ
  val : ℕ → α
deriving Inhabited

namespace PyDict

/-- The empty dictionary (`{}` or a fresh `defaultdict`). -/
def empty (d : α) : PyDict α := ⟨∅, fun _ => d⟩

/-- `m[k] = v`. -/
def set (m : PyDict α) (k : ℕ) (v : α) : PyDict α :=
  ⟨insert k m.keys, fun j => if j = k then v else m.val j⟩

/-- Read with default: the value a `defaultdict(set)` lookup yields
(the auto-vivified empty bucket stored by such a lookup is value-irrelevant
and is materialised explicitly at the call sites where it can be read). -/
def getD (m : PyDict α) (k : ℕ) (d : α) : α :=
  if k ∈ m.keys then m.val k else d

/-- `m.pop(k, None)`: drop the key if present, never fails. -/
def drop (m : PyDict α) (k : ℕ) : PyDict α :=
  ⟨m.keys.erase k, m.val⟩

/-- `m[k].add(x)` on a `defaultdict(set)`: vivify the bucket for `k` if
absent, then insert `x` into it. -/
def addTo (m : PyDict (Finset ℕ)) (k x : ℕ) : PyDict (Finset ℕ) :=
  m.set k (insert x (m.getD k ∅))

end PyDict

/-- An entry as `BaseIndex` sees it: its `tid` and its concrete Python
type `type(entry)`, coded as a natural number. -/
structure Entry where
  tid : ℕ
  ty : ℕ
deriving DecidableEq, Inhabited

/-- A link as `update_link_index` reads it: `index_key` is
`link.index_key`, `parent_key` is `link.get_parent().index_key` and
`child_key` is `link.get_child().index_key`. -/
structure Link where
  index_key : ℕ
  parent_key : ℕ
  child_key : ℕ
deriving DecidableEq, Inhabited

/-- A group as `update_group_index` reads it: its `tid` and the
`index_key`s of its `members`. -/
structure GroupType where
  tid : ℕ
  members : List ℕ
deriving DecidableEq, Inhabited

/-- The exceptions `BaseIndex` can raise: `KeyError` from a dictionary or
set (the spec's NotFound), and `PackIndexError` (the spec's
IndexUnavailable). -/
inductive PyError where
  | keyError : PyError
  | packIndexError : String → PyError
deriving DecidableEq, Inhabited

instance {ε α : Type} [DecidableEq ε] [DecidableEq α] : DecidableEq (Except ε α) :=
  fun x y =>
    match x, y with
    | .ok a, .ok b => if h : a = b then isTrue (by rw [h]) else isFalse (by simp [h])
    | .error a, .error b => if h : a = b then isTrue (by rw [h]) else isFalse (by simp [h])
    | .ok _, .error _ => isFalse (by simp)
    | .error _, .ok _ => isFalse (by simp)

/-- The state of a `BaseIndex` object, field for field:
`_entry_index`, `_type_index`, `_subtype_index`, `_group_index`,
`_link_index` (which only ever holds either no key or both `"child_index"`
and `"parent_index"`, modelled as an optional pair, child first),
`_group_index_switch` and `_link_index_switch`. -/
structure BaseIndex where
  _entry_index : ℕ → Option Entry
  _type_index : PyDict (Finset ℕ)
  _subtype_index : PyDict (Finset ℕ)
  _group_index : PyDict (Finset ℕ)
  _link_index : Option (PyDict (Finset ℕ) × PyDict (Finset ℕ))
  _group_index_switch : Bool
  _link_index_switch : Bool

namespace BaseIndex

/-- `BaseIndex.__init__`. -/
def init : BaseIndex :=
  { _entry_index := fun _ => none
    _type_index := PyDict.empty ∅
    _subtype_index := PyDict.empty ∅
    _group_index := PyDict.empty ∅
    _link_index := none
    _group_index_switch := false
    _link_index_switch := false }

/-- Loop body of `update_basic_index`: store the entry under its tid, add
the tid to the bucket of its type, and `pop` the subtype-cache key of that
exact type. -/
def addBasic (s : BaseIndex) (e : Entry) : BaseIndex :=
  { s with
    _entry_index := fun k => if k = e.tid then some e else s._entry_index k
    _type_index := s._type_index.addTo e.ty e.tid
    _subtype_index := s._subtype_index.drop e.ty }

/-- `update_basic_index(entries)`. -/
def update_basic_index (s : BaseIndex) (entries : List Entry) : BaseIndex :=
  entries.foldl addBasic s

/-- `get_entry(tid)`: `self._entry_index[tid]`, raising `KeyError` when the
tid is unknown. -/
def get_entry (s : BaseIndex) (tid : ℕ) : Except PyError Entry :=
  match s._entry_index tid with
  | some e => .ok e
  | none => .error .keyError

/-- `query_by_type(t)`: the bucket `self._type_index[t]` (a `defaultdict`,
so an absent type yields the empty set). -/
def query_by_type (s : BaseIndex) (t : ℕ) : Finset ℕ :=
  s._type_index.getD t ∅

/-- `query_by_type_subtype(t)`: on a cache hit return the cached set;
otherwise scan every key of `_type_index`, keep those with
`issubclass(index_key, t)` (the relation `sub`), take the union of their
buckets, cache and return it. -/
def query_by_type_subtype (s : BaseIndex) (sub : ℕ → ℕ → Bool) (t : ℕ) :
    Finset ℕ × BaseIndex :=
  if t ∈ s._subtype_index.keys then (s._subtype_index.val t, s)
  else
    let r := (s._type_index.keys.filter (fun k => sub k t)).biUnion
      (fun k => s._type_index.val k)
    (r, { s with _subtype_index := s._subtype_index.set t r })

/-- `remove_entry(entry)`: `pop` the tid from `_entry_index` (KeyError if
absent), then `self._type_index[type(entry)].remove(entry.tid)` (the
`defaultdict` lookup vivifies the bucket; `set.remove` raises `KeyError`
if the tid is not in it), then turn both switches off.  The post-raise
state is returned alongside the error. -/
def remove_entry (s : BaseIndex) (e : Entry) : BaseIndex × Option PyError :=
  match s._entry_index e.tid with
  | none => (s, some .keyError)
  | some _ =>
    let s1 : BaseIndex :=
      { s with _entry_index := fun k => if k = e.tid then none else s._entry_index k }
    let b := s1._type_index.getD e.ty ∅
    if e.tid ∈ b then
      let s2 : BaseIndex := { s1 with _type_index := s1._type_index.set e.ty (b.erase e.tid) }
      ({ s2 with _group_index_switch := false, _link_index_switch := false }, none)
    else
      ({ s1 with _type_index := s1._type_index.set e.ty b }, some .keyError)

/-- `turn_link_index_switch(on)`. -/
def turn_link_index_switch (s : BaseIndex) (b : Bool) : BaseIndex :=
  { s with _link_index_switch := b }

/-- `turn_group_index_switch(on)`. -/
def turn_group_index_switch (s : BaseIndex) (b : Bool) : BaseIndex :=
  { s with _group_index_switch := b }

/-- `link_index(tid, as_parent)`: raise `PackIndexError` when the link
switch is off; otherwise read the parent or child sub-index (a `KeyError`
would occur if `_link_index` had not been populated). -/
def link_index (s : BaseIndex) (tid : ℕ) (as_parent : Bool) :
    Except PyError (Finset ℕ) :=
  if ¬ s._link_index_switch then
    .error (.packIndexError "Link index for pack not build")
  else
    match s._link_index with
    | none => .error .keyError
    | some cp =>
      if as_parent then .ok (cp.2.getD tid ∅) else .ok (cp.1.getD tid ∅)

/-- `group_index(tid)`: raise `PackIndexError` when the group switch is
off, otherwise read the member map. -/
def group_index (s : BaseIndex) (tid : ℕ) : Except PyError (Finset ℕ) :=
  if ¬ s._group_index_switch then
    .error (.packIndexError "Group index for pack not build")
  else .ok (s._group_index.getD tid ∅)

/-- Loop body of `update_link_index`: record the link's `index_key` under
its child's key in the child sub-index and under its parent's key in the
parent sub-index. -/
def addLink (cp : PyDict (Finset ℕ) × PyDict (Finset ℕ)) (l : Link) :
    PyDict (Finset ℕ) × PyDict (Finset ℕ) :=
  (cp.1.addTo l.child_key l.index_key, cp.2.addTo l.parent_key l.index_key)

/-- `update_link_index(links)`: raise `PackIndexError` when the link switch
is off; otherwise record every link under both keys.  When the switch is on
but `_link_index` holds no sub-indexes, the first loop iteration raises
`KeyError`. -/
def update_link_index (s : BaseIndex) (links : List Link) :
    BaseIndex × Option PyError :=
  if ¬ s._link_index_switch then
    (s, some (.packIndexError "Link index has not been built."))
  else
    match s._link_index with
    | none => if links.isEmpty then (s, none) else (s, some .keyError)
    | some cp => ({ s with _link_index := some (links.foldl addLink cp) }, none)

/-- `build_link_index(links)`: turn the link switch on, reset both
sub-indexes, then `update_link_index(links)`. -/
def build_link_index (s : BaseIndex) (links : List Link) :
    BaseIndex × Option PyError :=
  let s1 := s.turn_link_index_switch true
  let s2 : BaseIndex := { s1 with _link_index := some (PyDict.empty ∅, PyDict.empty ∅) }
  s2.update_link_index links

/-- Loop body of `update_group_index`: record the group's tid under every
member's key. -/
def addGroup (m : PyDict (Finset ℕ)) (g : GroupType) : PyDict (Finset ℕ) :=
  g.members.foldl (fun m mem => m.addTo mem g.tid) m

/-- `update_group_index(groups)`: the guard is `if not self._group_index`,
i.e. it raises `PackIndexError` exactly when the member map is empty — it
does not consult `_group_index_switch`.  Otherwise record every
(member, group) pair. -/
def update_group_index (s : BaseIndex) (groups : List GroupType) :
    BaseIndex × Option PyError :=
  if s._group_index.keys = ∅ then
    (s, some (.packIndexError "Group index has not been built."))
  else ({ s with _group_index := groups.foldl addGroup s._group_index }, none)

/-- `build_group_index(groups)`: turn the group switch on, reset the member
map to a fresh empty `defaultdict`, then `update_group_index(groups)`. -/
def build_group_index (s : BaseIndex) (groups : List GroupType) :
    BaseIndex × Option PyError :=
  let s1 := s.turn_group_index_switch true
  let s2 : BaseIndex := { s1 with _group_index := PyDict.empty ∅ }
  s2.update_group_index groups

/-- Run `remove_entry` over a list of entries, recording whether every
single removal succeeded. -/
def removeAllOk (s : BaseIndex) (ds : List Entry) : BaseIndex × Bool :=
  ds.foldl (fun p d =>
    let r := p.1.remove_entry d
    (r.1, p.2 && r.2.isNone)) (s, true)

end BaseIndex

/-- The types occurring in a list of entries. -/
def tyKeys (E : List Entry) : Finset ℕ := (E.map Entry.ty).toFinset

/-- The tids of the entries of a list whose type is exactly `t`. -/
def tidsTy (E : List Entry) (t : ℕ) : Finset ℕ :=
  ((E.filter (fun e => e.ty == t)).map Entry.tid).toFinset

/-- The entry a dictionary keyed by tid ends up holding at key `k` after
the writes of a list of entries, if any: the last entry with tid `k`. -/
def lastEntry : List Entry → ℕ → Option Entry
  | [], _ => none
  | e :: E, k =>
    match lastEntry E k with
    | some x => some x
    | none => if e.tid = k then some e else none

/-- The mutating operations of `BaseIndex` other than the `build_*` calls
and the raw switch toggles — everything that cannot re-enable a relation
index. -/
inductive MutOp where
  | basic : List Entry → MutOp
  | removeE : Entry → MutOp
  | ulink : List Link → MutOp
  | ugroup : List GroupType → MutOp

/-- The state after a mutating operation, whether or not it raised. -/
def applyOp (s : BaseIndex) : MutOp → BaseIndex
  | .basic E => s.update_basic_index E
  | .removeE e => (s.remove_entry e).1
  | .ulink L => (s.update_link_index L).1
  | .ugroup G => (s.update_group_index G).1

/-!
Reference-semantics model of the `_type_index` lookup path.  In Python the
values of `_type_index` are mutable `set` objects and `query_by_type`
returns the object itself, not a copy.  To reason about aliasing we give
the same two lines of code (`self._type_index[t]` and
`self._type_index[type(entry)].add(entry.tid)`) a heap-explicit reading:
set objects live in a heap addressed by reference ids, and the dictionary
maps a type key to the reference of its bucket.
-/

/-- Heap-explicit state for the `_type_index` portion of `BaseIndex`. -/
structure RefState where
  heap : ℕ → Finset ℕ
  nextRef : ℕ
  tkeys : Finset ℕ
  tref : ℕ → ℕ

namespace RefState

/-- A fresh index: no buckets allocated. -/
def init : RefState := ⟨fun _ => ∅, 0, ∅, fun _ => 0⟩

/-- `self._type_index[t]` on a `defaultdict(set)`: return the reference of
the bucket object for `t`, allocating a fresh empty set first when `t` is
absent. -/
def bucketRef (s : RefState) (t : ℕ) : ℕ × RefState :=
  if t ∈ s.tkeys then (s.tref t, s)
  else
    (s.nextRef,
      { heap := fun j => if j = s.nextRef then ∅ else s.heap j
        nextRef := s.nextRef + 1
        tkeys := insert t s.tkeys
        tref := fun j => if j = t then s.nextRef else s.tref j })

/-- `query_by_type(t)`: `return self._type_index[t]` — the caller receives
the reference to the bucket object, not a copy of its contents. -/
def query_by_type (s : RefState) (t : ℕ) : ℕ × RefState := s.bucketRef t

/-- The `_type_index` effect of one `update_basic_index` loop iteration:
`self._type_index[type(entry)].add(entry.tid)` mutates the bucket object
in place. -/
def addBasic (s : RefState) (e : Entry) : RefState :=
  let rs := s.bucketRef e.ty
  { rs.2 with heap := fun j => if j = rs.1 then insert e.tid (rs.2.heap j) else rs.2.heap j }

/-- The `_type_index` effect of `update_basic_index(entries)`. -/
def update_basic_index (s : RefState) (entries : List Entry) : RefState :=
  entries.foldl addBasic s

end RefState

namespace PyDict

theorem keys_set (m : PyDict α) (k : ℕ) (v : α) :
    (m.set k v).keys = insert k m.keys := rfl

theorem getD_set_self (m : PyDict α) (k : ℕ) (v d : α) :
    (m.set k v).getD k d = v := by
  simp [set, getD]

theorem getD_set_ne (m : PyDict α) {j k : ℕ} (v d : α) (h : j ≠ k) :
    (m.set k v).getD j d = m.getD j d := by
  simp [set, getD, h]

theorem keys_addTo (m : PyDict (Finset ℕ)) (k x : ℕ) :
    (m.addTo k x).keys = insert k m.keys := rfl

theorem getD_addTo_self (m : PyDict (Finset ℕ)) (k x : ℕ) :
    (m.addTo k x).getD k ∅ = insert x (m.getD k ∅) := by
  simp [addTo, getD_set_self]

theorem getD_addTo_ne (m : PyDict (Finset ℕ)) {j k : ℕ} (x : ℕ) (h : j ≠ k) :
    (m.addTo k x).getD j ∅ = m.getD j ∅ := by
  simp [addTo, getD_set_ne _ _ _ h]

theorem val_addTo_ne (m : PyDict (Finset ℕ)) {j k : ℕ} (x : ℕ) (h : j ≠ k) :
    (m.addTo k x).val j = m.val j := by
  simp [addTo, set, h]

theorem keys_drop (m : PyDict α) (k : ℕ) : (m.drop k).keys = m.keys.erase k := rfl

theorem val_drop (m : PyDict α) (k : ℕ) : (m.drop k).val = m.val := rfl

theorem getD_empty (d : α) (k : ℕ) (d2 : α) : (empty d).getD k d2 = d2 := by
  simp [empty, getD]

theorem val_eq_getD (m : PyDict α) {k : ℕ} (d : α) (h : k ∈ m.keys) :
    m.val k = m.getD k d := by
  simp [getD, h]

end PyDict

namespace BaseIndex

theorem addBasic_group (s : BaseIndex) (e : Entry) :
    (s.addBasic e)._group_index = s._group_index := rfl

theorem upd_group (s : BaseIndex) (E : List Entry) :
    (s.update_basic_index E)._group_index = s._group_index := by
  induction E generalizing s with
  | nil => rfl
  | cons e E ih => simpa [update_basic_index, List.foldl_cons] using ih (s.addBasic e)

theorem upd_link (s : BaseIndex) (E : List Entry) :
    (s.update_basic_index E)._link_index = s._link_index := by
  induction E generalizing s with
  | nil => rfl
  | cons e E ih => simpa [update_basic_index, List.foldl_cons] using ih (s.addBasic e)

theorem upd_group_switch (s : BaseIndex) (E : List Entry) :
    (s.update_basic_index E)._group_index_switch = s._group_index_switch := by
  induction E generalizing s with
  | nil => rfl
  | cons e E ih => simpa [update_basic_index, List.foldl_cons] using ih (s.addBasic e)

theorem upd_link_switch (s : BaseIndex) (E : List Entry) :
    (s.update_basic_index E)._link_index_switch = s._link_index_switch := by
  induction E generalizing s with
  | nil => rfl
  | cons e E ih => simpa [update_basic_index, List.foldl_cons] using ih (s.addBasic e)

theorem upd_cons (s : BaseIndex) (e : Entry) (E : List Entry) :
    s.update_basic_index (e :: E) = (s.addBasic e).update_basic_index E := rfl

theorem upd_entry (s : BaseIndex) (E : List Entry) (k : ℕ) :
    (s.update_basic_index E)._entry_index k =
      match lastEntry E k with
      | some x => some x
      | none => s._entry_index k := by
  induction E generalizing s with
  | nil => simp [update_basic_index, lastEntry]
  | cons e E ih =>
    rw [upd_cons, ih]
    cases h : lastEntry E k with
    | some x => simp [lastEntry, h]
    | none =>
      by_cases he : e.tid = k
      · simp [lastEntry, h, he, addBasic]
      · simp [lastEntry, h, he, addBasic, Ne.symm he]

theorem lastEntry_eq_none (E : List Entry) (k : ℕ) :
    lastEntry E k = none ↔ k ∉ E.map Entry.tid := by
  induction E with
  | nil => simp [lastEntry]
  | cons e E ih =>
    cases h : lastEntry E k with
    | some x =>
      simp only [lastEntry, h]
      have : k ∈ E.map Entry.tid := by
        by_contra hk
        exact (by simp [ih.mpr hk] at h)
      simp [this]
    | none =>
      by_cases he : e.tid = k
      · simp [lastEntry, h, he]
      · simp [lastEntry, h, he, ih.mp h, Ne.symm he]

theorem lastEntry_nodup (E : List Entry) (d : Entry)
    (hnd : (E.map Entry.tid).Nodup) (hd : d ∈ E) :
    lastEntry E d.tid = some d := by
  induction E with
  | nil => cases hd
  | cons e E ih =>
    have hnd' : (e.tid :: E.map Entry.tid).Nodup := by simpa using hnd
    rcases List.mem_cons.mp hd with rfl | hd'
    · have : d.tid ∉ E.map Entry.tid := (List.nodup_cons.mp hnd').1
      simp [lastEntry, (lastEntry_eq_none E d.tid).mpr this]
    · have h := ih (List.nodup_cons.mp hnd').2 hd'
      simp [lastEntry, h]

end BaseIndex

theorem PyDict.ext_keys_val (m1 m2 : PyDict α) (h1 : m1.keys = m2.keys)
    (h2 : m1.val = m2.val) : m1 = m2 := by
  cases m1; cases m2; simp_all

theorem BaseIndex.ext_fields (s1 s2 : BaseIndex)
    (h1 : s1._entry_index = s2._entry_index)
    (h2 : s1._type_index = s2._type_index)
    (h3 : s1._subtype_index = s2._subtype_index)
    (h4 : s1._group_index = s2._group_index)
    (h5 : s1._link_index = s2._link_index)
    (h6 : s1._group_index_switch = s2._group_index_switch)
    (h7 : s1._link_index_switch = s2._link_index_switch) : s1 = s2 := by
  cases s1; cases s2; simp_all

theorem tyKeys_cons (e : Entry) (E : List Entry) :
    tyKeys (e :: E) = insert e.ty (tyKeys E) := by
  simp [tyKeys]

theorem tidsTy_cons (e : Entry) (E : List Entry) (t : ℕ) :
    tidsTy (e :: E) t =
      if e.ty = t then insert e.tid (tidsTy E t) else tidsTy E t := by
  by_cases h : e.ty = t <;> simp [tidsTy, List.filter_cons, h]

theorem mem_tidsTy (E : List Entry) (t x : ℕ) :
    x ∈ tidsTy E t ↔ ∃ e ∈ E, e.ty = t ∧ e.tid = x := by
  simp only [tidsTy, List.mem_toFinset, List.mem_map, List.mem_filter, beq_iff_eq]
  constructor
  · rintro ⟨e, ⟨he, hty⟩, htid⟩; exact ⟨e, he, hty, htid⟩
  · rintro ⟨e, he, hty, htid⟩; exact ⟨e, ⟨he, hty⟩, htid⟩

namespace BaseIndex

theorem query_by_type_def (s : BaseIndex) (t : ℕ) :
    s.query_by_type t = s._type_index.getD t ∅ := rfl

theorem upd_tkeys (s : BaseIndex) (E : List Entry) :
    (s.update_basic_index E)._type_index.keys = s._type_index.keys ∪ tyKeys E := by
  induction E generalizing s with
  | nil => simp [update_basic_index, tyKeys]
  | cons e E ih =>
    rw [upd_cons, ih, tyKeys_cons]
    show insert e.ty s._type_index.keys ∪ tyKeys E = _
    rw [Finset.insert_union, Finset.union_insert]

theorem upd_qbt (s : BaseIndex) (E : List Entry) (t : ℕ) :
    (s.update_basic_index E).query_by_type t = s.query_by_type t ∪ tidsTy E t := by
  induction E generalizing s with
  | nil => simp [update_basic_index, tidsTy, query_by_type]
  | cons e E ih =>
    rw [upd_cons, ih, tidsTy_cons]
    by_cases h : e.ty = t
    · subst h
      rw [query_by_type_def (s.addBasic e)]
      show (s._type_index.addTo e.ty e.tid).getD e.ty ∅ ∪ tidsTy E e.ty = _
      rw [PyDict.getD_addTo_self, if_pos rfl, query_by_type_def,
        Finset.insert_union, Finset.union_insert]
    · rw [query_by_type_def (s.addBasic e)]
      show (s._type_index.addTo e.ty e.tid).getD t ∅ ∪ tidsTy E t = _
      rw [PyDict.getD_addTo_ne _ _ (fun hc => h hc.symm), if_neg h, query_by_type_def]

theorem upd_tval_not_mem (s : BaseIndex) (E : List Entry) {t : ℕ}
    (h : t ∉ tyKeys E) :
    (s.update_basic_index E)._type_index.val t = s._type_index.val t := by
  induction E generalizing s with
  | nil => rfl
  | cons e E ih =>
    rw [tyKeys_cons] at h
    rw [upd_cons, ih (s.addBasic e) (fun hc => h (Finset.mem_insert_of_mem hc))]
    exact PyDict.val_addTo_ne _ _ (fun hc => h (hc ▸ Finset.mem_insert_self _ _))

theorem upd_skeys (s : BaseIndex) (E : List Entry) :
    (s.update_basic_index E)._subtype_index.keys =
      s._subtype_index.keys \ tyKeys E := by
  induction E generalizing s with
  | nil => simp [update_basic_index, tyKeys]
  | cons e E ih =>
    rw [upd_cons, ih, tyKeys_cons]
    show s._subtype_index.keys.erase e.ty \ tyKeys E = _
    ext a
    simp only [Finset.mem_sdiff, Finset.mem_erase, Finset.mem_insert]
    tauto

theorem upd_sval (s : BaseIndex) (E : List Entry) :
    (s.update_basic_index E)._subtype_index.val = s._subtype_index.val := by
  induction E generalizing s with
  | nil => rfl
  | cons e E ih => rw [upd_cons, ih]; rfl

end BaseIndex

/-- C10: `update_basic_index` is idempotent — applying the same entry list
twice in succession leaves exactly the state (entry index, type index,
subtype cache, and untouched relation structures) of applying it once. -/
theorem claim_C10_update_basic_index_idempotent (s : BaseIndex) (E : List Entry) :
    (s.update_basic_index E).update_basic_index E = s.update_basic_index E := by
  apply BaseIndex.ext_fields
  · funext k
    rw [BaseIndex.upd_entry, BaseIndex.upd_entry]
    cases h : lastEntry E k <;> simp
  · apply PyDict.ext_keys_val
    · rw [BaseIndex.upd_tkeys, BaseIndex.upd_tkeys, Finset.union_assoc,
        Finset.union_self]
    · funext j
      by_cases hj : j ∈ tyKeys E
      · have h1 : j ∈ (s.update_basic_index E)._type_index.keys := by
          rw [BaseIndex.upd_tkeys]; exact Finset.mem_union_right _ hj
        have h2 : j ∈ ((s.update_basic_index E).update_basic_index E)._type_index.keys := by
          rw [BaseIndex.upd_tkeys]; exact Finset.mem_union_right _ hj
        rw [PyDict.val_eq_getD _ ∅ h2, PyDict.val_eq_getD _ ∅ h1,
          ← BaseIndex.query_by_type_def, ← BaseIndex.query_by_type_def,
          BaseIndex.upd_qbt, BaseIndex.upd_qbt, Finset.union_assoc,
          Finset.union_self]
      · exact BaseIndex.upd_tval_not_mem _ _ hj
  · apply PyDict.ext_keys_val
    · rw [BaseIndex.upd_skeys, BaseIndex.upd_skeys]
      ext a
      simp only [Finset.mem_sdiff]
      tauto
    · rw [BaseIndex.upd_sval, BaseIndex.upd_sval]
  · rw [BaseIndex.upd_group]
  · rw [BaseIndex.upd_link]
  · rw [BaseIndex.upd_group_switch]
  · rw [BaseIndex.upd_link_switch]

/-- C1: the claim says that inserting, via `update_basic_index`, an entry
whose type is a previously-unseen proper subtype of an already-cached
ancestor type `T` invalidates the cached `query_by_type_subtype(T)` result,
so that re-querying includes the new tid.  Evaluating the code at such an
input (types `0` and `1` with `1` a subclass of `0`): after caching
`{1}` for type `0` and inserting entry `⟨2, 1⟩`, the code pops only the
subtype-cache key `1` (the entry's exact type), so the re-query still
returns the stale set `{1}` and the new tid `2` is missing. -/
theorem claim_C1_subtype_cache_stale_eval :
    (((BaseIndex.init.update_basic_index [⟨1, 0⟩]).query_by_type_subtype
        (fun k t => (k == t) || (k == 1 && t == 0)) 0).1 = {1} ∧
      ((((BaseIndex.init.update_basic_index [⟨1, 0⟩]).query_by_type_subtype
          (fun k t => (k == t) || (k == 1 && t == 0)) 0).2.update_basic_index
            [⟨2, 1⟩]).query_by_type_subtype
          (fun k t => (k == t) || (k == 1 && t == 0)) 0).1 = {1}) ∧
      (2 : ℕ) ∉ ((((BaseIndex.init.update_basic_index [⟨1, 0⟩]).query_by_type_subtype
          (fun k t => (k == t) || (k == 1 && t == 0)) 0).2.update_basic_index
            [⟨2, 1⟩]).query_by_type_subtype
          (fun k t => (k == t) || (k == 1 && t == 0)) 0).1 := by
  decide

/-- C2: the claim says `build_group_index` completes without error,
turns the group switch on, resets the member map and records every
(member, group) pair.  In the code it never completes: after resetting
`_group_index` to a fresh empty `defaultdict`, the `update_group_index`
guard `if not self._group_index` (emptiness of the just-reset map, not the
switch) is always taken, so every `build_group_index` call — on any state
and any group list — raises `PackIndexError`. -/
theorem claim_C2_build_group_index_always_raises (s : BaseIndex)
    (G : List GroupType) :
    (s.build_group_index G).2 =
      some (PyError.packIndexError "Group index has not been built.") := by
  simp [BaseIndex.build_group_index, BaseIndex.update_group_index,
    BaseIndex.turn_group_index_switch, PyDict.empty]

/-- C3: the claim says a failed mutation leaves the whole index state
exactly as before the call.  Evaluating `build_group_index([])` on a fresh
index: the call raises, yet the group switch — off before the call — is
left on, a partial-success state. -/
theorem claim_C3_failed_build_mutates_state :
    ((BaseIndex.init.build_group_index []).2).isSome = true ∧
    ((BaseIndex.init.build_group_index []).1)._group_index_switch = true ∧
    BaseIndex.init._group_index_switch = false := by
  decide

/-- C4: the claim says `update_group_index` fails with IndexUnavailable
exactly when the group switch is off, succeeding whenever it is on.  The
code tests emptiness of the member map instead of the switch, so both
directions fail: with the switch on and the map empty the call raises, and
with the switch off and the map non-empty it succeeds. -/
theorem claim_C4_update_group_index_wrong_guard :
    ((BaseIndex.init.turn_group_index_switch true)._group_index_switch = true ∧
      ((BaseIndex.init.turn_group_index_switch true).update_group_index []).2 =
        some (PyError.packIndexError "Group index has not been built.")) ∧
    (({ BaseIndex.init with
          _group_index := (PyDict.empty ∅).addTo 3 7 } : BaseIndex)._group_index_switch
        = false ∧
      (({ BaseIndex.init with
          _group_index := (PyDict.empty ∅).addTo 3 7 } : BaseIndex).update_group_index
          [⟨9, [4]⟩]).2 = none) := by
  decide

/-- C8: `remove_entry` leaves the subtype cache entirely unchanged — on
every state and every argument (whether the removal succeeds or raises),
no cached set is discarded or patched. -/
theorem claim_C8_remove_entry_preserves_subtype_cache (s : BaseIndex) (e : Entry) :
    ((s.remove_entry e).1)._subtype_index = s._subtype_index := by
  unfold BaseIndex.remove_entry
  cases h : s._entry_index e.tid with
  | none => rfl
  | some x =>
    simp only
    split <;> rfl

namespace BaseIndex

theorem foldl_addLink_parent (L : List Link) (c p : PyDict (Finset ℕ)) (k : ℕ) :
    ((L.foldl addLink (c, p)).2).getD k ∅ =
      p.getD k ∅ ∪ ((L.filter (fun l => l.parent_key == k)).map Link.index_key).toFinset := by
  induction L generalizing c p with
  | nil => simp
  | cons l L ih =>
    rw [List.foldl_cons,
      show addLink (c, p) l =
        (c.addTo l.child_key l.index_key, p.addTo l.parent_key l.index_key) from rfl,
      ih]
    by_cases hk : l.parent_key = k
    · subst hk
      rw [PyDict.getD_addTo_self, List.filter_cons]
      simp only [beq_self_eq_true, if_true, List.map_cons, List.toFinset_cons]
      rw [Finset.insert_union, Finset.union_insert]
    · rw [PyDict.getD_addTo_ne _ _ (fun hc => hk hc.symm), List.filter_cons]
      simp only [beq_iff_eq, hk, if_false]

end BaseIndex

/-- C5: in the initial state every `link_index` and `group_index` call
raises `PackIndexError` (the IndexUnavailable condition); and for every
link list `L`, `build_link_index(L)` succeeds and afterwards
`link_index(p, as_parent=True)` returns exactly the ids of the links in
`L` whose parent key equals `p` — the empty set when `p` is no link's
parent. -/
theorem claim_C5_relation_index_gating (tid0 p : ℕ) (ap : Bool) (L : List Link) :
    BaseIndex.init.link_index tid0 ap =
      .error (.packIndexError "Link index for pack not build") ∧
    BaseIndex.init.group_index tid0 =
      .error (.packIndexError "Group index for pack not build") ∧
    (BaseIndex.init.build_link_index L).2 = none ∧
    ((BaseIndex.init.build_link_index L).1).link_index p true =
      .ok (((L.filter (fun l => l.parent_key == p)).map Link.index_key).toFinset) := by
  refine ⟨rfl, rfl, ?_, ?_⟩
  · simp [BaseIndex.build_link_index, BaseIndex.update_link_index,
      BaseIndex.turn_link_index_switch]
  · have h : ((BaseIndex.init.build_link_index L).1).link_index p true =
        .ok (((L.foldl BaseIndex.addLink (PyDict.empty ∅, PyDict.empty ∅)).2).getD p ∅) := by
      simp [BaseIndex.build_link_index, BaseIndex.update_link_index,
        BaseIndex.turn_link_index_switch, BaseIndex.link_index]
    rw [h, BaseIndex.foldl_addLink_parent, PyDict.getD_empty, Finset.empty_union]

namespace BaseIndex

theorem remove_entry_eq (s : BaseIndex) (e : Entry)
    (h1 : (s._entry_index e.tid).isSome = true)
    (h2 : e.tid ∈ s.query_by_type e.ty) :
    s.remove_entry e =
      ({ _entry_index := fun k => if k = e.tid then none else s._entry_index k
         _type_index := s._type_index.set e.ty ((s._type_index.getD e.ty ∅).erase e.tid)
         _subtype_index := s._subtype_index
         _group_index := s._group_index
         _link_index := s._link_index
         _group_index_switch := false
         _link_index_switch := false }, none) := by
  cases hc : s._entry_index e.tid with
  | none => rw [hc] at h1; simp at h1
  | some x =>
    unfold remove_entry
    rw [hc]
    simp only
    exact if_pos h2

theorem applyOp_link_switch_false (s : BaseIndex) (o : MutOp)
    (h : s._link_index_switch = false) :
    (applyOp s o)._link_index_switch = false := by
  cases o with
  | basic E => rw [applyOp, upd_link_switch]; exact h
  | removeE e =>
    show ((s.remove_entry e).1)._link_index_switch = false
    unfold remove_entry
    cases hc : s._entry_index e.tid with
    | none => exact h
    | some x =>
      simp only
      split
      · rfl
      · exact h
  | ulink L =>
    show ((s.update_link_index L).1)._link_index_switch = false
    unfold update_link_index
    split
    · exact h
    · split
      · split <;> exact h
      · exact h
  | ugroup G =>
    show ((s.update_group_index G).1)._link_index_switch = false
    unfold update_group_index
    split
    · exact h
    · exact h

theorem applyOp_group_switch_false (s : BaseIndex) (o : MutOp)
    (h : s._group_index_switch = false) :
    (applyOp s o)._group_index_switch = false := by
  cases o with
  | basic E => rw [applyOp, upd_group_switch]; exact h
  | removeE e =>
    show ((s.remove_entry e).1)._group_index_switch = false
    unfold remove_entry
    cases hc : s._entry_index e.tid with
    | none => exact h
    | some x =>
      simp only
      split
      · rfl
      · exact h
  | ulink L =>
    show ((s.update_link_index L).1)._group_index_switch = false
    unfold update_link_index
    split
    · exact h
    · split
      · split <;> exact h
      · exact h
  | ugroup G =>
    show ((s.update_group_index G).1)._group_index_switch = false
    unfold update_group_index
    split
    · exact h
    · exact h

theorem runOps_link_switch_false (ops : List MutOp) (s : BaseIndex)
    (h : s._link_index_switch = false) :
    (ops.foldl applyOp s)._link_index_switch = false := by
  induction ops generalizing s with
  | nil => exact h
  | cons o ops ih => exact ih _ (applyOp_link_switch_false s o h)

theorem runOps_group_switch_false (ops : List MutOp) (s : BaseIndex)
    (h : s._group_index_switch = false) :
    (ops.foldl applyOp s)._group_index_switch = false := by
  induction ops generalizing s with
  | nil => exact h
  | cons o ops ih => exact ih _ (applyOp_group_switch_false s o h)

theorem link_index_error_of_off (s : BaseIndex) (tid : ℕ) (ap : Bool)
    (h : s._link_index_switch = false) :
    s.link_index tid ap = .error (.packIndexError "Link index for pack not build") := by
  unfold link_index
  rw [h]
  rfl

theorem group_index_error_of_off (s : BaseIndex) (tid : ℕ)
    (h : s._group_index_switch = false) :
    s.group_index tid = .error (.packIndexError "Group index for pack not build") := by
  unfold group_index
  rw [h]
  rfl

end BaseIndex

/-- C6: an index state contains an entry `e` when `e.tid` is a key of the
entry index and sits in the type bucket of `e`'s type.  After
`remove_entry(e)` succeeds, `get_entry(e.tid)` raises `KeyError` (the
NotFound condition), `e.tid` is gone from its former type bucket, and —
after any further sequence of non-rebuilding mutations — every
`link_index` and `group_index` query raises `PackIndexError` (the
IndexUnavailable condition), whether or not `e` took part in any link or
group. -/
theorem claim_C6_deletion_cascade (s : BaseIndex) (e : Entry)
    (ops : List MutOp) (tid0 : ℕ) (ap : Bool)
    (h1 : (s._entry_index e.tid).isSome = true)
    (h2 : e.tid ∈ s.query_by_type e.ty) :
    (s.remove_entry e).2 = none ∧
    ((s.remove_entry e).1).get_entry e.tid = .error .keyError ∧
    e.tid ∉ ((s.remove_entry e).1).query_by_type e.ty ∧
    (ops.foldl applyOp (s.remove_entry e).1).link_index tid0 ap =
      .error (.packIndexError "Link index for pack not build") ∧
    (ops.foldl applyOp (s.remove_entry e).1).group_index tid0 =
      .error (.packIndexError "Group index for pack not build") := by
  rw [BaseIndex.remove_entry_eq s e h1 h2]
  refine ⟨rfl, ?_, ?_, ?_, ?_⟩
  · simp [BaseIndex.get_entry]
  · rw [BaseIndex.query_by_type_def]
    show e.tid ∉ (s._type_index.set e.ty ((s._type_index.getD e.ty ∅).erase e.tid)).getD e.ty ∅
    rw [PyDict.getD_set_self]
    exact Finset.not_mem_erase _ _
  · exact BaseIndex.link_index_error_of_off _ _ _
      (BaseIndex.runOps_link_switch_false _ _ rfl)
  · exact BaseIndex.group_index_error_of_off _ _
      (BaseIndex.runOps_group_switch_false _ _ rfl)

/-- Witness for C6 at a concrete input: insert entry `⟨1, 0⟩`, remove it,
then run one further `update_basic_index`; the removal succeeded,
`get_entry 1` and all relation queries fail as stated. -/
theorem claim_C6_deletion_cascade_witness :
    (((BaseIndex.init.update_basic_index [⟨1, 0⟩])._entry_index
        (Entry.mk 1 0).tid).isSome = true) ∧
    ((Entry.mk 1 0).tid ∈
      (BaseIndex.init.update_basic_index [⟨1, 0⟩]).query_by_type (Entry.mk 1 0).ty) ∧
    (((BaseIndex.init.update_basic_index [⟨1, 0⟩]).remove_entry ⟨1, 0⟩).2 = none ∧
      (((BaseIndex.init.update_basic_index [⟨1, 0⟩]).remove_entry ⟨1, 0⟩).1).get_entry
          (Entry.mk 1 0).tid = .error .keyError ∧
      (Entry.mk 1 0).tid ∉
        (((BaseIndex.init.update_basic_index [⟨1, 0⟩]).remove_entry ⟨1, 0⟩).1).query_by_type
          (Entry.mk 1 0).ty ∧
      ([MutOp.basic [⟨2, 0⟩]].foldl applyOp
          ((BaseIndex.init.update_basic_index [⟨1, 0⟩]).remove_entry ⟨1, 0⟩).1).link_index
          5 true = .error (.packIndexError "Link index for pack not build") ∧
      ([MutOp.basic [⟨2, 0⟩]].foldl applyOp
          ((BaseIndex.init.update_basic_index [⟨1, 0⟩]).remove_entry ⟨1, 0⟩).1).group_index
          5 = .error (.packIndexError "Group index for pack not build")) :=
  ⟨by decide, by decide,
    claim_C6_deletion_cascade (BaseIndex.init.update_basic_index [⟨1, 0⟩]) ⟨1, 0⟩
      [MutOp.basic [⟨2, 0⟩]] 5 true (by decide) (by decide)⟩

namespace BaseIndex

theorem removeAllOk_cons (s : BaseIndex) (d : Entry) (D : List Entry)
    (h : s.remove_entry d = ((s.remove_entry d).1, none)) :
    s.removeAllOk (d :: D) = ((s.remove_entry d).1).removeAllOk D := by
  unfold removeAllOk
  rw [List.foldl_cons]
  simp only
  rw [show (s.remove_entry d).2 = none from congrArg Prod.snd h]
  rfl

theorem tid_not_mem_tidsTy (E : List Entry) (hnd : (E.map Entry.tid).Nodup)
    {d : Entry} (hd : d ∈ E) {t : ℕ} (ht : d.ty ≠ t) :
    d.tid ∉ tidsTy E t := by
  intro hmem
  rcases (mem_tidsTy E t d.tid).mp hmem with ⟨e, he, hety, hetid⟩
  have : e = d := List.inj_on_of_nodup_map hnd he hd hetid
  exact ht (this ▸ hety)

theorem removeAll_inv (E : List Entry) (hndE : (E.map Entry.tid).Nodup)
    (D : List Entry) (hD : ∀ d ∈ D, d ∈ E) (hndD : (D.map Entry.tid).Nodup)
    (s : BaseIndex) (R : Finset ℕ)
    (hdisj : ∀ d ∈ D, d.tid ∉ R)
    (hA : ∀ t, s.query_by_type t = tidsTy E t \ R)
    (hB : ∀ k, ((s._entry_index k).isSome = true) ↔
      k ∈ (E.map Entry.tid).toFinset \ R) :
    (s.removeAllOk D).2 = true ∧
    ∀ t, ((s.removeAllOk D).1).query_by_type t =
      tidsTy E t \ (R ∪ (D.map Entry.tid).toFinset) := by
  induction D generalizing s R with
  | nil =>
    refine ⟨rfl, fun t => ?_⟩
    show s.query_by_type t = _
    rw [hA t]
    simp
  | cons d D ih =>
    have hdE : d ∈ E := hD d (List.mem_cons_self d D)
    have hdR : d.tid ∉ R := hdisj d (List.mem_cons_self d D)
    have hndD' : (d.tid :: D.map Entry.tid).Nodup := by simpa using hndD
    have h1 : (s._entry_index d.tid).isSome = true := by
      rw [hB d.tid]
      exact Finset.mem_sdiff.mpr ⟨by simp [List.mem_map]; exact ⟨d, hdE, rfl⟩, hdR⟩
    have h2 : d.tid ∈ s.query_by_type d.ty := by
      rw [hA d.ty]
      exact Finset.mem_sdiff.mpr
        ⟨(mem_tidsTy E d.ty d.tid).mpr ⟨d, hdE, rfl, rfl⟩, hdR⟩
    have heq := remove_entry_eq s d h1 h2
    have hA' : ∀ t, ((s.remove_entry d).1).query_by_type t =
        tidsTy E t \ insert d.tid R := by
      intro t
      rw [heq]
      by_cases ht : d.ty = t
      · subst ht
        rw [query_by_type_def]
        show (s._type_index.set d.ty ((s._type_index.getD d.ty ∅).erase d.tid)).getD
          d.ty ∅ = _
        rw [PyDict.getD_set_self, ← query_by_type_def, hA d.ty]
        ext a
        simp only [Finset.mem_erase, Finset.mem_sdiff, Finset.mem_insert]
        tauto
      · rw [query_by_type_def]
        show (s._type_index.set d.ty ((s._type_index.getD d.ty ∅).erase d.tid)).getD
          t ∅ = _
        rw [PyDict.getD_set_ne _ _ _ (fun hc => ht hc.symm), ← query_by_type_def, hA t]
        have hni := tid_not_mem_tidsTy E hndE hdE ht
        ext a
        simp only [Finset.mem_sdiff, Finset.mem_insert]
        constructor
        · rintro ⟨ha, hr⟩
          exact ⟨ha, fun hc => hc.elim (fun hh => hni (hh ▸ ha)) hr⟩
        · rintro ⟨ha, hr⟩
          exact ⟨ha, fun hc => hr (Or.inr hc)⟩
    have hB' : ∀ k, ((((s.remove_entry d).1)._entry_index k).isSome = true) ↔
        k ∈ (E.map Entry.tid).toFinset \ insert d.tid R := by
      intro k
      rw [heq]
      show ((if k = d.tid then none else s._entry_index k).isSome = true) ↔ _
      by_cases hk : k = d.tid
      · subst hk
        simp
      · rw [if_neg hk, hB k]
        simp only [Finset.mem_sdiff, Finset.mem_insert]
        constructor
        · rintro ⟨ha, hr⟩
          exact ⟨ha, fun hc => hc.elim hk hr⟩
        · rintro ⟨ha, hr⟩
          exact ⟨ha, fun hc => hr (Or.inr hc)⟩
    have hD' : ∀ x ∈ D, x ∈ E := fun x hx => hD x (List.mem_cons_of_mem d hx)
    have hdisj' : ∀ x ∈ D, x.tid ∉ insert d.tid R := by
      intro x hx
      have hxd : x.tid ≠ d.tid := by
        intro hc
        exact (List.nodup_cons.mp hndD').1 (hc ▸ List.mem_map_of_mem Entry.tid hx)
      intro hc
      exact (Finset.mem_insert.mp hc).elim hxd (hdisj x (List.mem_cons_of_mem d hx))
    have hrec := ih hD' (List.nodup_cons.mp hndD').2 ((s.remove_entry d).1)
      (insert d.tid R) hdisj' hA' hB'
    rw [removeAllOk_cons s d D (by rw [heq])]
    refine ⟨hrec.1, fun t => ?_⟩
    rw [hrec.2 t]
    ext a
    simp only [Finset.mem_sdiff, Finset.mem_union, Finset.mem_insert,
      List.map_cons, List.toFinset_cons, List.mem_toFinset]
    tauto

end BaseIndex

/-- C7: starting from a fresh index, insert a list of entries `E` with
pairwise-distinct tids, then delete any sub-collection `D` of them (each
deletion succeeds); afterwards `query_by_type(T)` returns exactly the tids
of the entries of `E` whose exact type is `T`, minus the deleted tids —
entries of other (e.g. proper subtype) types are never included. -/
theorem claim_C7_type_partition (E D : List Entry) (T : ℕ)
    (hndE : (E.map Entry.tid).Nodup)
    (hD : ∀ d ∈ D, d ∈ E)
    (hndD : (D.map Entry.tid).Nodup) :
    ((BaseIndex.init.update_basic_index E).removeAllOk D).2 = true ∧
    ((BaseIndex.init.update_basic_index E).removeAllOk D).1.query_by_type T =
      tidsTy E T \ (D.map Entry.tid).toFinset := by
  have hA : ∀ t, (BaseIndex.init.update_basic_index E).query_by_type t =
      tidsTy E t \ (∅ : Finset ℕ) := by
    intro t
    rw [BaseIndex.upd_qbt, Finset.sdiff_empty]
    have : BaseIndex.init.query_by_type t = ∅ := rfl
    rw [this, Finset.empty_union]
  have hB : ∀ k, (((BaseIndex.init.update_basic_index E)._entry_index k).isSome
      = true) ↔ k ∈ (E.map Entry.tid).toFinset \ (∅ : Finset ℕ) := by
    intro k
    rw [BaseIndex.upd_entry, Finset.sdiff_empty, List.mem_toFinset]
    cases hl : lastEntry E k with
    | none =>
      simp only [Option.isSome_none]
      constructor
      · intro hc; cases hc
      · intro hc
        exact absurd hc (by simpa using (BaseIndex.lastEntry_eq_none E k).mp hl)
    | some x =>
      simp only [Option.isSome_some]
      constructor
      · intro _
        by_contra hk
        rw [(BaseIndex.lastEntry_eq_none E k).mpr hk] at hl
        cases hl
      · intro _; trivial
  have h := BaseIndex.removeAll_inv E hndE D hD hndD
    (BaseIndex.init.update_basic_index E) ∅ (by simp) hA hB
  refine ⟨h.1, ?_⟩
  rw [h.2 T, Finset.empty_union]

/-- Witness for C7 at a concrete input: insert entries `⟨1,0⟩, ⟨2,0⟩,
`⟨3,1⟩`, delete `⟨2,0⟩`; every deletion succeeded and `query_by_type 0`
is `{1}`. -/
theorem claim_C7_type_partition_witness :
    (([⟨1, 0⟩, ⟨2, 0⟩, ⟨3, 1⟩] : List Entry).map Entry.tid).Nodup ∧
    (∀ d ∈ ([⟨2, 0⟩] : List Entry), d ∈ ([⟨1, 0⟩, ⟨2, 0⟩, ⟨3, 1⟩] : List Entry)) ∧
    ((([⟨2, 0⟩] : List Entry).map Entry.tid).Nodup) ∧
    (((BaseIndex.init.update_basic_index [⟨1, 0⟩, ⟨2, 0⟩, ⟨3, 1⟩]).removeAllOk
        [⟨2, 0⟩]).2 = true ∧
      ((BaseIndex.init.update_basic_index [⟨1, 0⟩, ⟨2, 0⟩, ⟨3, 1⟩]).removeAllOk
          [⟨2, 0⟩]).1.query_by_type 0 =
        tidsTy [⟨1, 0⟩, ⟨2, 0⟩, ⟨3, 1⟩] 0 \
          (([⟨2, 0⟩] : List Entry).map Entry.tid).toFinset) :=
  ⟨by decide, by decide, by decide,
    claim_C7_type_partition [⟨1, 0⟩, ⟨2, 0⟩, ⟨3, 1⟩] [⟨2, 0⟩] 0
      (by decide) (by decide) (by decide)⟩

/-- C9: the claim says every query returns a snapshot set, so that no
mutation performed after the query returns can alter the set the query
already returned.  Counterexample at a concrete input, in the
heap-explicit reading of the same code: on a fresh index,
`query_by_type(0)` returns (a reference to) the bucket object, which holds
`∅`; a subsequent `update_basic_index([Entry(tid=1, type=0)])` executes
`self._type_index[0].add(1)`, mutating that same object, so the set the
query already returned now holds `{1}`. -/
theorem claim_C9_snapshot_counterexample :
    ¬ (((RefState.init.query_by_type 0).2.update_basic_index [⟨1, 0⟩]).heap
          (RefState.init.query_by_type 0).1 =
        (RefState.init.query_by_type 0).2.heap (RefState.init.query_by_type 0).1) := by
  decide

/-- C9 amended: `query_by_type` returns a live reference to the mutable
bucket object, not a snapshot: for every state, after the query returns,
inserting an entry of the queried type via `update_basic_index` mutates
the very set the query returned, which afterwards holds exactly the old
contents plus the new tid. -/
theorem claim_C9_amended_live_reference (s : RefState) (e : Entry) :
    ((s.query_by_type e.ty).2.update_basic_index [e]).heap (s.query_by_type e.ty).1 =
      insert e.tid ((s.query_by_type e.ty).2.heap (s.query_by_type e.ty).1) := by
  by_cases h : e.ty ∈ s.tkeys
  · simp [RefState.query_by_type, RefState.bucketRef, RefState.update_basic_index,
      RefState.addBasic, h]
  · simp [RefState.query_by_type, RefState.bucketRef, RefState.update_basic_index,
      RefState.addBasic, h]
